import Mathlib

/-!
# Verification of the transcript-to-SRT converter (src/app.py)

Shallow embedding of the conversion pipeline of `src/app.py`.

Modelling conventions:
* CPython `float` / `datetime` / `timedelta` arithmetic is embedded over the
  exact rationals `ℚ`.  `datetime` values are represented by their
  seconds-since-midnight value; `datetime.strptime` produces a value in
  `[0, 86400)` and component extraction (`.hour`, `.minute`, ...) of a shifted
  datetime corresponds to reduction modulo 86400 seconds (the date part is
  ignored by the source whenever it reads components).  CPython quantizes
  `timedelta` to whole microseconds; that sub-microsecond refinement is
  orthogonal to every claim and is applied here exactly where the source
  stores a `datetime` (`usOfSeconds`), i.e. when building the rendered
  entries.
* Python `round` is round-half-to-even (`pyRound`), `//` on integers is floor
  division (`Int.fdiv`), `%` is floor mod (`Int.emod` -- identical for the
  positive divisors used here).
* Python strings are Lean `String`s; `str.split()`, `str.strip()`,
  `str.splitlines()`, `"sep".join(...)` and `str.rsplit(".", 1)[0]` get
  explicit models below.
* `re.match` against the fixed pattern `\[(\d{2}:\d{2}:\d{2}\.\d{2})\]\s*(.*)`
  is modelled by `matchTimecodeLine`, and `datetime.strptime(tc, "%H:%M:%S.%f")`
  on the regex-shaped captures by `parse_timecode` (including strptime's
  field-range checks: hour 0-23, minute 0-59, second 0-59; out-of-range
  fields raise `ValueError`, modelled as `none`).
* Error signalling (`raise ValueError`) is modelled with `Except ConvErr`;
  the two distinct error messages of the pipeline are the two constructors.
-/

set_option linter.unusedVariables false

namespace TranscriptToSrt

/-- Python `round`: round half to even, on exact rationals. -/
def pyRound (q : ℚ) : ℤ :=
  let f := ⌊q⌋
  let r := q - (f : ℚ)
  if r < 1/2 then f
  else if 1/2 < r then f + 1
  else if f % 2 = 0 then f else f + 1

/-- `timedelta(seconds=q)` stored in a `datetime`: whole microseconds
(CPython rounds the fractional microsecond half-to-even). -/
def usOfSeconds (q : ℚ) : ℤ := pyRound (q * 1000000)

/-- Reading only `.hour/.minute/.second/.microsecond` of a datetime ignores the
date: the seconds value is reduced modulo one day (86400 s). -/
def timeOfDayMod (q : ℚ) : ℚ := q - 86400 * (⌊q / 86400⌋ : ℤ)

/-- `drop_frame_adjust` of src/app.py (lines 8-19), numeric content.
The source returns `timedelta(seconds=...)` in both branches; the microsecond
quantization of that constructor is applied at the storing site
(`usOfSeconds` in `partsGo`), exactly as the `datetime(1900,1,1) + ...`
additions do in the source. -/
def drop_frame_adjust (time_in_seconds : ℚ) (fps : ℚ) : ℚ :=
  if fps = 2997/100 ∨ fps = 5994/100 then
    let total_frames : ℤ := pyRound (time_in_seconds * fps)
    let drop_frames : ℤ := if fps = 2997/100 then 2 else 4
    let frames_per_10_minutes : ℤ := pyRound (fps * 60 * 10)
    let frames_per_minute : ℤ := pyRound (fps * 60)
    let d := total_frames.fdiv frames_per_10_minutes
    let m := total_frames.emod frames_per_10_minutes
    let dropped := drop_frames *
      (9 * d + max 0 ((m - drop_frames).fdiv (frames_per_minute - drop_frames)))
    let adjusted_frames := total_frames - dropped
    (adjusted_frames : ℚ) / fps
  else time_in_seconds

/-- Whether `needle` starts `hay` (character-wise). -/
def charsStartTest : List Char → List Char → Bool
  | [], _ => true
  | _ :: _, [] => false
  | a :: as, b :: bs => a == b && charsStartTest as bs

/-- Whether `needle` occurs contiguously inside `hay`: Python `needle in hay`. -/
def charsInfixTest (needle : List Char) : List Char → Bool
  | [] => charsStartTest needle []
  | b :: bs => charsStartTest needle (b :: bs) || charsInfixTest needle bs

/-- Substring containment, `val in name` on Python strings. -/
def strContains (needle haystack : String) : Bool :=
  charsInfixTest needle.data haystack.data

/-- Python `str.lower()` (character-wise lowercasing, which is all the fps
tokens of `detect_framerate` need). -/
def pyLower (s : String) : String :=
  String.mk (s.data.map Char.toLower)

/-- `detect_framerate` of src/app.py (lines 21-26). -/
def detect_framerate (file_name : String) : ℚ :=
  let name := pyLower file_name
  if strContains "29.97" name then 2997/100
  else if strContains "30" name then 30
  else if strContains "25" name then 25
  else if strContains "24" name then 24
  else 25

/-- Numeric value of a decimal digit character. -/
def digitVal (c : Char) : ℕ := c.toNat - '0'.toNat

/-- `parse_timecode` of src/app.py (lines 28-29):
`datetime.strptime(tc, "%H:%M:%S.%f")`, restricted to the 11-character
`HH:MM:SS.ff` shape guaranteed by the line regex; yields the time of day in
seconds.  strptime rejects hour > 23, minute > 59 and (through the
`datetime` constructor) second > 59 with a `ValueError`, modelled as `none`.
The two fractional digits are zero-padded to microseconds, i.e. worth
`ff/100` seconds. -/
def parse_timecode (tc : String) : Option ℚ :=
  match tc.data with
  | [h1, h2, c1, m1, m2, c2, s1, s2, d0, f1, f2] =>
    if h1.isDigit && h2.isDigit && c1 == ':' && m1.isDigit && m2.isDigit &&
       c2 == ':' && s1.isDigit && s2.isDigit && d0 == '.' &&
       f1.isDigit && f2.isDigit then
      let hh : ℕ := digitVal h1 * 10 + digitVal h2
      let mm : ℕ := digitVal m1 * 10 + digitVal m2
      let ss : ℕ := digitVal s1 * 10 + digitVal s2
      let ff : ℕ := digitVal f1 * 10 + digitVal f2
      if hh ≤ 23 && mm ≤ 59 && ss ≤ 59 then
        some ((hh : ℚ) * 3600 + (mm : ℚ) * 60 + (ss : ℚ) + (ff : ℚ) / 100)
      else none
    else none
  | _ => none

/-- Zero-pad to (at least) two digits, `f"{n:02d}"` for the nonnegative values
produced by the pipeline. -/
def pad2 (n : ℤ) : String :=
  if n < 10 then "0" ++ toString n.toNat else toString n.toNat

/-- Zero-pad to (at least) three digits (the millisecond field of
`strftime("%f")[:-3]`). -/
def pad3 (n : ℤ) : String :=
  if n < 10 then "00" ++ toString n.toNat
  else if n < 100 then "0" ++ toString n.toNat
  else toString n.toNat

/-- `fmt_srt` of src/app.py (lines 31-32): `dt.strftime("%H:%M:%S,%f")[:-3]`
on a datetime holding `us` microseconds past midnight 1900-01-01.  `%H` is
the hour of day (mod 24), `%f` is six microsecond digits of which the last
three are cut, i.e. truncation to milliseconds. -/
def fmt_srt (us : ℤ) : String :=
  let s := us.fdiv 1000000
  let usFrac := us.emod 1000000
  pad2 ((s.fdiv 3600).emod 24) ++ ":" ++ pad2 ((s.emod 3600).fdiv 60) ++ ":" ++
    pad2 (s.emod 60) ++ "," ++ pad3 (usFrac.fdiv 1000)

/-- `frames_from_timedelta` of src/app.py (lines 34-42) on a timedelta of
`us` microseconds.  `int()` on the nonnegative values involved is floor. -/
def frames_from_timedelta (us : ℤ) (fps : ℚ) : String :=
  let total_seconds : ℚ := (us : ℚ) / 1000000
  let hours : ℤ := ⌊total_seconds / 3600⌋
  let minutes : ℤ := ⌊(total_seconds - 3600 * (⌊total_seconds / 3600⌋ : ℤ) : ℚ) / 60⌋
  let seconds : ℤ := ⌊total_seconds - 60 * (⌊total_seconds / 60⌋ : ℤ)⌋
  let frames0 : ℤ := pyRound ((total_seconds - (⌊total_seconds⌋ : ℤ)) * fps)
  let frames : ℤ := if fps ≤ (frames0 : ℚ) then ⌊fps - 1⌋ else frames0
  pad2 hours ++ ":" ++ pad2 minutes ++ ":" ++ pad2 seconds ++ ":" ++ pad2 frames

/-- Split a character list at every character satisfying `p`, keeping empty
pieces (the splitting primitive underlying Python `str.split`). -/
def splitByPred (p : Char → Bool) : List Char → List (List Char)
  | [] => [[]]
  | x :: xs =>
    if p x then [] :: splitByPred p xs
    else
      match splitByPred p xs with
      | [] => [[x]]
      | y :: ys => (x :: y) :: ys

/-- Python `text.split()`: split on whitespace runs, no empty words. -/
def pySplitWs (s : String) : List String :=
  ((splitByPred Char.isWhitespace s.data).map (fun cs => String.mk cs)).filter
    (fun w => w ≠ "")

/-- The accumulator loop of `wrap_text_to_lines` (src/app.py lines 48-56):
`cur` is the line being built, `acc` the finished lines in reverse order. -/
def wrapLoop (max_chars : ℕ) : List String → String → List String → List String
  | [], cur, acc => (cur :: acc).reverse
  | w :: rest, cur, acc =>
    if cur.length + 1 + w.length ≤ max_chars then
      wrapLoop max_chars rest (cur ++ " " ++ w) acc
    else
      wrapLoop max_chars rest w (cur :: acc)

/-- `wrap_text_to_lines` of src/app.py (lines 44-57). -/
def wrap_text_to_lines (text : String) (max_chars : ℕ) : List String :=
  match pySplitWs text with
  | [] => [""]
  | w :: ws => wrapLoop max_chars ws w []

/-- Python `sep.join(strs)`. -/
def pyJoin (sep : String) : List String → String
  | [] => ""
  | [x] => x
  | x :: y :: ys => x ++ sep ++ pyJoin sep (y :: ys)

/-- Python `str.splitlines()` for `\n`-separated text: like splitting on
`\n` but without a trailing empty line when the text ends in `\n`. -/
def pySplitlines (s : String) : List String :=
  let parts := (splitByPred (fun c => c == '\n') s.data).map (fun cs => String.mk cs)
  match parts.reverse with
  | "" :: rest => rest.reverse
  | _ => parts

/-- `re.match(r"\[(\d{2}:\d{2}:\d{2}\.\d{2})\]\s*(.*)", line)` of
src/app.py (lines 70-75): anchored at the start of the line; on success the
pair is (group 1: the 11-character timecode, group 2: the rest of the line
after the bracket with leading whitespace removed by the greedy `\s*`). -/
def matchTimecodeLine (line : String) : Option (String × String) :=
  match line.data with
  | lb :: h1 :: h2 :: c1 :: m1 :: m2 :: c2 :: s1 :: s2 :: d0 :: f1 :: f2 :: rb :: rest =>
    if lb == '[' && h1.isDigit && h2.isDigit && c1 == ':' && m1.isDigit &&
       m2.isDigit && c2 == ':' && s1.isDigit && s2.isDigit && d0 == '.' &&
       f1.isDigit && f2.isDigit && rb == ']' then
      some (String.mk [h1, h2, c1, m1, m2, c2, s1, s2, d0, f1, f2],
            String.mk (rest.dropWhile Char.isWhitespace))
    else none
  | _ => none

/-- A segment dict of src/app.py (lines 91-96). -/
structure Segment where
  start_s : ℚ
  end_s : ℚ
  duration_s : ℚ
  text : String
deriving DecidableEq, Repr

/-- Python `text.strip()`: remove leading and trailing whitespace. -/
def pyStrip (s : String) : String :=
  String.mk (((s.data.dropWhile Char.isWhitespace).reverse.dropWhile
    Char.isWhitespace).reverse)

/-- The raw end value of one segment, src/app.py lines 83-87: `next start
- 1/fps` seconds when a following entry exists (aborting when its timecode
does not parse), else `start + default_last_duration` seconds. -/
def nextEndRaw (fps dld start_s : ℚ) : List (String × String) → Option ℚ
  | [] => some (start_s + dld)
  | (tc2, _) :: _ =>
    match parse_timecode tc2 with
    | none => none
    | some next_s => some (next_s - 1 / fps)

/-- The segment dict appended at src/app.py lines 91-96, from the parsed
start, the raw end value and the raw text: component extraction of the end
datetime reduces it modulo one day, the duration is clamped to at least
0.001 s, and the text is stripped. -/
def segOf (start_s endRaw : ℚ) (text : String) : Segment :=
  { start_s := start_s
    end_s := timeOfDayMod endRaw
    duration_s := max (timeOfDayMod endRaw - start_s) (1/1000)
    text := pyStrip text }

/-- The segment-building loop of src/app.py (lines 80-96).  Each entry's end
datetime is `next start - 1/fps` (non-last) or `start + default_last_duration`
(last); reading its components reduces the value modulo one day
(`timeOfDayMod`).  A timecode whose fields are out of range makes
`parse_timecode` fail, which aborts the whole conversion (`none`). -/
def buildSegments (fps dld : ℚ) : List (String × String) → Option (List Segment)
  | [] => some []
  | (tc, text) :: rest =>
    match parse_timecode tc with
    | none => none
    | some start_s =>
      match nextEndRaw fps dld start_s rest with
      | none => none
      | some endRaw =>
        match buildSegments fps dld rest with
        | none => none
        | some segs => some (segOf start_s endRaw text :: segs)

/-- Worker for `chunkList`: `fuel` only forces structural recursion and is
initialised to the list length, which the per-step drop of at least one
element never exceeds. -/
def chunkGo (k : ℕ) : ℕ → List α → List (List α)
  | _, [] => []
  | 0, _ :: _ => []
  | fuel + 1, x :: xs => (x :: xs.take (k - 1)) :: chunkGo k fuel (xs.drop (k - 1))

/-- `lines[i:i+max_lines]` chunking of src/app.py line 101 (for the
positive `max_lines_per_caption` values the source accepts). -/
def chunkList (k : ℕ) (l : List α) : List (List α) :=
  chunkGo k l.length l

/-- `part_start` of src/app.py line 105. -/
def partStart (start_s part_duration : ℚ) (p : ℕ) : ℚ :=
  start_s + (p : ℚ) * part_duration

/-- `part_end` of src/app.py lines 106-108, including the overlap-avoidance
guard. -/
def partEnd (start_s part_duration fps : ℚ) (p : ℕ) : ℚ :=
  let e := start_s + ((p : ℚ) + 1) * part_duration - 1 / fps
  if e ≤ partStart start_s part_duration p then
    partStart start_s part_duration p + max (1/1000) part_duration
  else e

/-- One rendered entry dict of src/app.py (lines 112-116): the two adjusted
datetimes (microseconds past midnight 1900-01-01) and the joined text block. -/
structure SrtEntry where
  start_us : ℤ
  end_us : ℤ
  text : String
deriving DecidableEq, Repr

/-- The `enumerate(grouped)` loop of src/app.py (lines 104-116). -/
def partsGo (seg : Segment) (fps part_duration : ℚ) : ℕ → List (List String) → List SrtEntry
  | _, [] => []
  | p, g :: rest =>
    { start_us := usOfSeconds (drop_frame_adjust (partStart seg.start_s part_duration p) fps)
      end_us := usOfSeconds (drop_frame_adjust (partEnd seg.start_s part_duration fps p) fps)
      text := pyJoin "\n" g } :: partsGo seg fps part_duration (p + 1) rest

/-- Caption splitting for one segment, src/app.py lines 99-116. -/
def buildParts (fps : ℚ) (max_chars max_lines : ℕ) (seg : Segment) : List SrtEntry :=
  let lines := wrap_text_to_lines seg.text max_chars
  let grouped := chunkList max_lines lines
  let n_parts := grouped.length
  let part_duration := if 0 < n_parts then seg.duration_s / (n_parts : ℚ) else seg.duration_s
  partsGo seg fps part_duration 0 grouped

/-- The `enumerate(srt_entries, start=1)` rendering loop of src/app.py
(lines 137-139). -/
def renderSrtLinesFrom (idx : ℕ) : List SrtEntry → List String
  | [] => []
  | e :: rest =>
    (toString idx ++ "\n" ++ fmt_srt e.start_us ++ " --> " ++ fmt_srt e.end_us ++
      "\n" ++ e.text ++ "\n") :: renderSrtLinesFrom (idx + 1) rest

/-- `srt_lines` of src/app.py (lines 137-139). -/
def renderSrtLines (entries : List SrtEntry) : List String :=
  renderSrtLinesFrom 1 entries

/-- The SRT preview of src/app.py line 141:
`"\n".join(srt_lines[:5]) + ("\n...\n" if len(srt_lines) > 5 else "")`. -/
def srtPreview (srt_lines : List String) : String :=
  pyJoin "\n" (srt_lines.take 5) ++ (if 5 < srt_lines.length then "\n...\n" else "")

/-- Python `text.replace("\n", " ")` for the single-character pattern:
replace every newline character by a space. -/
def nlToSpace (s : String) : String :=
  String.mk (s.data.map (fun c => if c == '\n' then ' ' else c))

/-- `avid_lines` of src/app.py (lines 119-130). -/
def renderAvidLines (fps : ℚ) (entries : List SrtEntry) : List String :=
  ["@ This file written with the Avid Caption plugin, version 1", "", "<begin subtitles>"]
    ++ entries.map (fun e =>
        frames_from_timedelta e.start_us fps ++ " " ++
        frames_from_timedelta e.end_us fps ++ " " ++
        nlToSpace e.text)
    ++ ["", "<end subtitles>"]

/-- The Avid preview of src/app.py line 132:
`"\n".join(avid_lines[2:7]) + ("\n...\n" if len(avid_lines) > 7 else "")`. -/
def avidPreview (avid_lines : List String) : String :=
  pyJoin "\n" ((avid_lines.drop 2).take 5) ++
    (if 7 < avid_lines.length then "\n...\n" else "")

/-- Python `file_name.rsplit(".", 1)[0]`: everything before the last dot,
or the whole name when there is none. -/
def rsplitStem (s : String) : String :=
  match s.data.reverse.dropWhile (fun c => c ≠ '.') with
  | [] => s
  | _ :: before => String.mk before.reverse

/-- The two `ValueError`s the pipeline can raise: the explicit
"No valid timecodes found" (src/app.py line 78) and a strptime failure on an
out-of-range timecode (src/app.py line 29). -/
inductive ConvErr where
  | noTimecodes
  | formatError
deriving DecidableEq, Repr

/-- The returned tuple `(output_text, preview, file_name_out, fps)` of
`convert_to_srt`. -/
structure ConvResult where
  text : String
  preview : String
  file_name_out : String
  fps : ℚ
deriving DecidableEq, Repr

set_option linter.unusedVariables false in
/-- `convert_to_srt` of src/app.py (lines 62-143).  `custom_suffix` is a
declared parameter of the source and is carried here, unused -- exactly as
in the source, whose SRT branch hardcodes `"_converted.srt"` (line 142). -/
def convert_to_srt (content : String) (file_name : String)
    (default_last_duration : ℚ) (max_chars_per_line : ℕ)
    (max_lines_per_caption : ℕ) (export_avid : Bool)
    (custom_suffix : String) : Except ConvErr ConvResult :=
  let fps := detect_framerate file_name
  let parsed := (pySplitlines content).filterMap matchTimecodeLine
  if parsed = [] then .error .noTimecodes
  else
    match buildSegments fps default_last_duration parsed with
    | none => .error .formatError
    | some segments =>
      let srt_entries := segments.flatMap (buildParts fps max_chars_per_line max_lines_per_caption)
      if export_avid then
        let avid_lines := renderAvidLines fps srt_entries
        .ok { text := pyJoin "\n" avid_lines
              preview := avidPreview avid_lines
              file_name_out := rsplitStem file_name ++ "_avid.txt"
              fps := fps }
      else
        let srt_lines := renderSrtLines srt_entries
        .ok { text := pyJoin "\n" srt_lines
              preview := srtPreview srt_lines
              file_name_out := rsplitStem file_name ++ "_converted.srt"
              fps := fps }

/-- The SRT index printed at the head of a rendered block: the characters of
the block before its first newline. -/
def srtIndexOf (line : String) : String :=
  String.mk (line.data.takeWhile (fun c => c != '\n'))

/-- Projection used to state facts about the rendered text of a conversion. -/
def convText : Except ConvErr ConvResult → Option String
  | .ok r => some r.text
  | .error _ => none

/-- Projection used to state facts about the returned output file name. -/
def convFileName : Except ConvErr ConvResult → Option String
  | .ok r => some r.file_name_out
  | .error _ => none

/-! ## Helper lemmas -/

theorem pyJoin_cons (sep x : String) (l : List String) (h : l ≠ []) :
    pyJoin sep (x :: l) = x ++ sep ++ pyJoin sep l := by
  cases l with
  | nil => exact absurd rfl h
  | cons y ys => rfl

theorem pyJoin_merge (sep : String) (xs : List String) (a b : String) (ys : List String) :
    pyJoin sep (xs ++ (a ++ sep ++ b) :: ys) = pyJoin sep (xs ++ a :: b :: ys) := by
  induction xs with
  | nil =>
    cases ys with
    | nil => rfl
    | cons z zs => simp [pyJoin, String.append_assoc]
  | cons x xs ih =>
    rw [List.cons_append, List.cons_append, pyJoin_cons sep x _ (by simp),
      pyJoin_cons sep x _ (by simp), ih]

theorem wrapLoop_join (mc : ℕ) :
    ∀ (ws : List String) (cur : String) (acc : List String),
      pyJoin " " (wrapLoop mc ws cur acc) = pyJoin " " (acc.reverse ++ cur :: ws) := by
  intro ws
  induction ws with
  | nil =>
    intro cur acc
    rw [wrapLoop, List.reverse_cons]
  | cons w rest ih =>
    intro cur acc
    rw [wrapLoop]
    by_cases hfit : cur.length + 1 + w.length ≤ mc
    · rw [if_pos hfit, ih, pyJoin_merge]
    · rw [if_neg hfit, ih, List.reverse_cons, List.append_assoc, List.singleton_append]

theorem mem_wrapLoop_bound (mc : ℕ) (W : List String) :
    ∀ (ws : List String) (cur : String) (acc : List String),
      (∀ w ∈ ws, w ∈ W) →
      (cur.length ≤ mc ∨ cur ∈ W) →
      (∀ l ∈ acc, l.length ≤ mc ∨ l ∈ W) →
      ∀ l ∈ wrapLoop mc ws cur acc, l.length ≤ mc ∨ l ∈ W := by
  intro ws
  induction ws with
  | nil =>
    intro cur acc _ hcur hacc l hl
    rw [wrapLoop, List.mem_reverse] at hl
    rcases List.mem_cons.mp hl with rfl | hl
    · exact hcur
    · exact hacc l hl
  | cons w rest ih =>
    intro cur acc hws hcur hacc l hl
    rw [wrapLoop] at hl
    by_cases hfit : cur.length + 1 + w.length ≤ mc
    · rw [if_pos hfit] at hl
      refine ih _ _ (fun x hx => hws x (List.mem_cons_of_mem _ hx)) (Or.inl ?_) hacc l hl
      have h1 : (" " : String).length = 1 := rfl
      rw [String.length_append, String.length_append, h1]
      omega
    · rw [if_neg hfit] at hl
      refine ih _ _ (fun x hx => hws x (List.mem_cons_of_mem _ hx))
        (Or.inr (hws w (List.mem_cons_self _ _))) ?_ l hl
      intro l2 hl2
      rcases List.mem_cons.mp hl2 with rfl | hl2
      · exact hcur
      · exact hacc _ hl2

theorem mem_wrapLoop_ne_empty (mc : ℕ) :
    ∀ (ws : List String) (cur : String) (acc : List String),
      cur ≠ "" →
      (∀ w ∈ ws, w ≠ "") →
      (∀ l ∈ acc, l ≠ "") →
      ∀ l ∈ wrapLoop mc ws cur acc, l ≠ "" := by
  intro ws
  induction ws with
  | nil =>
    intro cur acc hcur _ hacc l hl
    rw [wrapLoop, List.mem_reverse] at hl
    rcases List.mem_cons.mp hl with rfl | hl
    · exact hcur
    · exact hacc l hl
  | cons w rest ih =>
    intro cur acc hcur hws hacc l hl
    rw [wrapLoop] at hl
    by_cases hfit : cur.length + 1 + w.length ≤ mc
    · rw [if_pos hfit] at hl
      refine ih _ _ ?_ (fun x hx => hws x (List.mem_cons_of_mem _ hx)) hacc l hl
      intro he
      have hlen := congrArg String.length he
      have h1 : (" " : String).length = 1 := rfl
      have h0 : ("" : String).length = 0 := rfl
      rw [String.length_append, String.length_append, h1, h0] at hlen
      omega
    · rw [if_neg hfit] at hl
      refine ih _ _ (hws w (List.mem_cons_self _ _))
        (fun x hx => hws x (List.mem_cons_of_mem _ hx)) ?_ l hl
      intro l2 hl2
      rcases List.mem_cons.mp hl2 with rfl | hl2
      · exact hcur
      · exact hacc _ hl2

theorem mem_pySplitWs_ne_empty (s : String) : ∀ w ∈ pySplitWs s, w ≠ "" := by
  intro w hw
  unfold pySplitWs at hw
  simp only [List.mem_filter, decide_eq_true_eq] at hw
  exact hw.2

/-! ## Claim theorems -/

/-- Claim C7: for every segment parameterisation and part index, the
overlap-avoidance guard of src/app.py lines 106-108 yields a part end that is
strictly greater than the part start (the pre-drop-frame interval is never
inverted). -/
theorem part_guard_never_inverts (start_s part_duration fps : ℚ) (p : ℕ) :
    partStart start_s part_duration p < partEnd start_s part_duration fps p := by
  rw [partEnd]
  split
  · have h := le_max_left (1/1000 : ℚ) part_duration
    have : (0 : ℚ) < max (1/1000) part_duration := by
      apply lt_of_lt_of_le _ h
      norm_num
    linarith
  · next h => exact lt_of_not_le h

/-- Claim C4: greedy word-wrapping never produces a line longer than
`max_chars` unless that line is a single word of the text (kept unsplit);
no produced line is empty unless the text has no words, in which case the
result is exactly one empty line. -/
theorem wrap_width_spec (text : String) (mc : ℕ) (hmc : 0 < mc) :
    (∀ l ∈ wrap_text_to_lines text mc,
        l.length ≤ mc ∨ (mc < l.length ∧ l ∈ pySplitWs text)) ∧
    (pySplitWs text = [] → wrap_text_to_lines text mc = [""]) ∧
    (pySplitWs text ≠ [] → ∀ l ∈ wrap_text_to_lines text mc, l ≠ "") := by
  refine ⟨?_, ?_, ?_⟩
  · intro l hl
    rw [wrap_text_to_lines] at hl
    rcases hw : pySplitWs text with _ | ⟨w, ws⟩
    · rw [hw] at hl
      simp only [List.mem_singleton] at hl
      subst hl
      exact Or.inl (Nat.zero_le mc)
    · rw [hw] at hl
      have hmem := mem_wrapLoop_bound mc (w :: ws) ws w []
        (fun x hx => List.mem_cons_of_mem _ hx)
        (Or.inr (List.mem_cons_self _ _))
        (by simp) l hl
      rcases hmem with h | h
      · exact Or.inl h
      · rcases le_or_lt l.length mc with hle | hgt
        · exact Or.inl hle
        · exact Or.inr ⟨hgt, h⟩
  · intro h
    rw [wrap_text_to_lines, h]
  · intro hne l hl
    rw [wrap_text_to_lines] at hl
    rcases hw : pySplitWs text with _ | ⟨w, ws⟩
    · exact absurd hw hne
    · rw [hw] at hl
      exact mem_wrapLoop_ne_empty mc ws w []
        (mem_pySplitWs_ne_empty text w (by rw [hw]; exact List.mem_cons_self _ _))
        (fun x hx => mem_pySplitWs_ne_empty text x (by rw [hw]; exact List.mem_cons_of_mem _ hx))
        (by simp) l hl

/-- Witness for C4 at a concrete text and width. -/
theorem wrap_width_spec_witness :
    0 < 4 ∧ ∀ l ∈ wrap_text_to_lines "the superlongword ok" 4,
      l.length ≤ 4 ∨ (4 < l.length ∧ l ∈ pySplitWs "the superlongword ok") :=
  ⟨by decide, (wrap_width_spec "the superlongword ok" 4 (by decide)).1⟩

/-- Claim C10: joining the wrapped lines with single spaces reproduces the
whitespace-normalised input text: the words, in order, separated by single
spaces -- no word is lost, duplicated, split or reordered. -/
theorem wrap_join_words (text : String) (mc : ℕ) (hmc : 0 < mc) :
    pyJoin " " (wrap_text_to_lines text mc) = pyJoin " " (pySplitWs text) := by
  rw [wrap_text_to_lines]
  rcases hw : pySplitWs text with _ | ⟨w, ws⟩
  · rfl
  · rw [wrapLoop_join mc ws w [], List.reverse_nil, List.nil_append]

/-- Witness for C10 at a concrete text and width. -/
theorem wrap_join_words_witness :
    0 < 7 ∧ pyJoin " " (wrap_text_to_lines "  join   these words  " 7)
      = pyJoin " " (pySplitWs "  join   these words  ") :=
  ⟨by decide, wrap_join_words "  join   these words  " 7 (by decide)⟩

section ConcreteEvaluation

/- `Rat.add`, `Rat.mul`, `Rat.sub` and `Rat.inv` are `@[irreducible]` in this
toolchain, which blocks `decide` on concrete rational computations; they are
made semireducible locally so the closed evaluations below reduce. -/
attribute [local semireducible] Rat.add Rat.mul Rat.sub Rat.inv

/-- Claim C2 counterexample: on Scenario A's exact input the conversion does
NOT render the blocks claimed (`--> 00:00:02,960` and `--> 00:00:06,000`):
the code subtracts `1/fps` from every part end (src/app.py line 106) on top
of the `1/fps` already removed when the segment end was derived from the next
entry's start (line 85), so the rendered ends are 02,920 and 05,960. -/
theorem scenario_a_claimed_cx :
    convText (convert_to_srt "[00:00:01.00] Hello there\n[00:00:03.00] Bye"
        "transcript.txt" 3 42 2 false "_converted")
      ≠ some "1\n00:00:01,000 --> 00:00:02,960\nHello there\n\n2\n00:00:03,000 --> 00:00:06,000\nBye\n" := by
  decide

/-- Claim C2 (amended): on Scenario A's input the conversion produces exactly
the two caption blocks `1\n00:00:01,000 --> 00:00:02,920\nHello there\n` and
`2\n00:00:03,000 --> 00:00:05,960\nBye\n` (each part end gets an additional
`1/fps` subtracted, the last block included). -/
theorem scenario_a_output :
    (convert_to_srt "[00:00:01.00] Hello there\n[00:00:03.00] Bye"
        "transcript.txt" 3 42 2 false "_converted").toOption
      = some { text := "1\n00:00:01,000 --> 00:00:02,920\nHello there\n\n2\n00:00:03,000 --> 00:00:05,960\nBye\n"
               preview := "1\n00:00:01,000 --> 00:00:02,920\nHello there\n\n2\n00:00:03,000 --> 00:00:05,960\nBye\n"
               file_name_out := "transcript_converted.srt"
               fps := 25 } := by
  decide

/-- Claim C8 (code bug): the SRT branch ignores the `custom_suffix` parameter
and hardcodes `"_converted.srt"` (src/app.py line 142): with suffix "_subs"
the returned name is still `movie_converted.srt`, not `movie_subs.srt`. -/
theorem custom_suffix_ignored :
    convFileName (convert_to_srt "[00:00:01.00] Hi" "movie.txt" 3 42 2 false "_subs")
        = some "movie_converted.srt" ∧
    "movie_converted.srt" ≠ "movie_subs.srt" := by
  exact ⟨by decide, by decide⟩

/-- Claim C1 counterexample: with a following entry at timecode 00:00:00.00,
the first segment's end is NOT `next start - 1/fps = -1/25`: the source reads
the components of the datetime `next - 1/fps`, which wrapped past midnight to
the previous day, so the stored end is `86400 - 1/25` seconds. -/
theorem segment_end_wraps_cx :
    (buildSegments 25 3 [("00:00:01.00", "a"), ("00:00:00.00", "b")]).map
        (fun segs => segs.map Segment.end_s) = some [86400 - 1/25, 3] ∧
    (86400 - 1/25 : ℚ) ≠ 0 - 1/25 := by
  constructor
  · decide
  · norm_num

/-- Claim C3 constants: `frames_per_10_minutes = round(29.97*600) = 17982`. -/
theorem fp10m_2997 : pyRound ((2997 : ℚ)/100 * 60 * 10) = 17982 := by decide

/-- Claim C3 constants: `frames_per_minute = round(29.97*60) = 1798`. -/
theorem fpm_2997 : pyRound ((2997 : ℚ)/100 * 60) = 1798 := by decide

/-- Claim C3 constants: `frames_per_10_minutes = round(59.94*600) = 35964`. -/
theorem fp10m_5994 : pyRound ((5994 : ℚ)/100 * 60 * 10) = 35964 := by decide

/-- Claim C3 constants: `frames_per_minute = round(59.94*60) = 3596`. -/
theorem fpm_5994 : pyRound ((5994 : ℚ)/100 * 60) = 3596 := by decide

end ConcreteEvaluation

/-- Claim C3: `drop_frame_adjust` is the identity for any fps other than
29.97 and 59.94; at 29.97 (resp. 59.94) it returns
`(total_frames - dropped) / fps` with `total_frames = round(seconds*fps)`,
`dropped = drop_frames * (9*d + max 0 ((m - drop_frames) // (fpm - drop_frames)))`,
`d = total_frames // fp10`, `m = total_frames % fp10`, `drop_frames = 2`
(resp. 4), `fp10 = 17982` (resp. 35964) and `fpm = 1798` (resp. 3596). -/
theorem drop_frame_adjust_spec (t fps : ℚ) :
    (fps ≠ 2997/100 → fps ≠ 5994/100 → drop_frame_adjust t fps = t) ∧
    (drop_frame_adjust t (2997/100) =
      ((pyRound (t * (2997/100)) -
        2 * (9 * ((pyRound (t * (2997/100))).fdiv 17982) +
          max 0 (((pyRound (t * (2997/100))).emod 17982 - 2).fdiv (1798 - 2))) : ℤ) : ℚ)
        / (2997/100)) ∧
    (drop_frame_adjust t (5994/100) =
      ((pyRound (t * (5994/100)) -
        4 * (9 * ((pyRound (t * (5994/100))).fdiv 35964) +
          max 0 (((pyRound (t * (5994/100))).emod 35964 - 4).fdiv (3596 - 4))) : ℤ) : ℚ)
        / (5994/100)) := by
  refine ⟨fun h1 h2 => ?_, ?_, ?_⟩
  · rw [drop_frame_adjust, if_neg]
    rintro (h | h)
    · exact h1 h
    · exact h2 h
  · rw [drop_frame_adjust, if_pos (Or.inl rfl)]
    simp only [fp10m_2997, fpm_2997, eq_self_iff_true, if_true]
  · rw [drop_frame_adjust, if_pos (Or.inr rfl)]
    have hne : ((5994 : ℚ)/100 = 2997/100) = False := by
      simp only [eq_iff_iff, iff_false]
      norm_num
    simp only [fp10m_5994, fpm_5994, hne, if_false]

/-- Witness for C3: the identity branch at fps 25 and the drop-frame branch
at fps 29.97 on one second of material. -/
theorem drop_frame_adjust_spec_witness :
    drop_frame_adjust 1 25 = 1 ∧
    drop_frame_adjust 1 (2997/100) =
      ((pyRound ((1 : ℚ) * (2997/100)) -
        2 * (9 * ((pyRound ((1 : ℚ) * (2997/100))).fdiv 17982) +
          max 0 (((pyRound ((1 : ℚ) * (2997/100))).emod 17982 - 2).fdiv (1798 - 2))) : ℤ) : ℚ)
        / (2997/100) :=
  ⟨(drop_frame_adjust_spec 1 25).1 (by norm_num) (by norm_num),
   (drop_frame_adjust_spec 1 (2997/100)).2.1⟩

/-- Claim C9: in both rendering modes the preview is the first five rendered
units -- in Avid mode counted from just past the two header lines -- with the
`"..."` marker appended exactly when more units exist than are shown; and the
Avid header is exactly two lines long. -/
theorem preview_first_five (fps : ℚ) (entries : List SrtEntry) :
    avidPreview (renderAvidLines fps entries)
        = pyJoin "\n" (((renderAvidLines fps entries).drop 2).take 5) ++
          (if 5 < ((renderAvidLines fps entries).drop 2).length then "\n...\n" else "") ∧
    (renderAvidLines fps entries).take 2
        = ["@ This file written with the Avid Caption plugin, version 1", ""] ∧
    srtPreview (renderSrtLines entries)
        = pyJoin "\n" ((renderSrtLines entries).take 5) ++
          (if 5 < (renderSrtLines entries).length then "\n...\n" else "") := by
  refine ⟨?_, ?_, rfl⟩
  · have hlen : (renderAvidLines fps entries).length = entries.length + 5 := by
      simp [renderAvidLines]
    rw [avidPreview]
    congr 1
    rw [List.length_drop, hlen]
    rcases Nat.lt_or_ge 2 entries.length with h | h
    · rw [if_pos (by omega), if_pos (by omega)]
    · rw [if_neg (by omega), if_neg (by omega)]
  · simp [renderAvidLines]

theorem digitChar_ne_newline (n : ℕ) (h : n < 10) : (Nat.digitChar n != '\n') = true := by
  interval_cases n <;> decide

theorem toDigitsCore_ne_newline :
    ∀ (fuel n : ℕ) (ds : List Char), (∀ c ∈ ds, (c != '\n') = true) →
      ∀ c ∈ Nat.toDigitsCore 10 fuel n ds, (c != '\n') = true := by
  intro fuel
  induction fuel with
  | zero => intro n ds hds c hc; exact hds c hc
  | succ f ih =>
    intro n ds hds c hc
    rw [Nat.toDigitsCore] at hc
    have hd : (Nat.digitChar (n % 10) != '\n') = true :=
      digitChar_ne_newline _ (Nat.mod_lt _ (by decide))
    by_cases h0 : n / 10 = 0
    · simp only [h0, if_true, eq_self_iff_true] at hc
      rcases List.mem_cons.mp hc with rfl | hc
      · exact hd
      · exact hds c hc
    · simp only [h0, if_false] at hc
      refine ih _ _ ?_ c hc
      intro x hx
      rcases List.mem_cons.mp hx with rfl | hx
      · exact hd
      · exact hds x hx

theorem toString_nat_ne_newline (n : ℕ) : ∀ c ∈ (toString n).data, (c != '\n') = true := by
  intro c hc
  have hdata : (toString n).data = Nat.toDigits 10 n := rfl
  rw [hdata, Nat.toDigits] at hc
  exact toDigitsCore_ne_newline _ _ _ (by simp) c hc

theorem takeWhile_append_newline (xs ys : List Char)
    (hx : ∀ c ∈ xs, (c != '\n') = true) :
    (xs ++ '\n' :: ys).takeWhile (fun c => c != '\n') = xs := by
  induction xs with
  | nil => simp [List.takeWhile_cons]
  | cons a l ih =>
    rw [List.cons_append, List.takeWhile_cons, hx a (List.mem_cons_self _ _), if_pos rfl,
      ih (fun c hc => hx c (List.mem_cons_of_mem _ hc))]

theorem srtIndexOf_indexed (k : ℕ) (s : String) :
    srtIndexOf (toString k ++ ("\n" ++ s)) = toString k := by
  rw [srtIndexOf, String.data_append, String.data_append]
  have hnl : ("\n" : String).data = ['\n'] := rfl
  rw [hnl, List.singleton_append, takeWhile_append_newline _ _ (toString_nat_ne_newline k)]

theorem renderSrtLinesFrom_length (k : ℕ) (l : List SrtEntry) :
    (renderSrtLinesFrom k l).length = l.length := by
  induction l generalizing k with
  | nil => rfl
  | cons e rest ih => simp [renderSrtLinesFrom, ih]

theorem renderSrtLinesFrom_indices (l : List SrtEntry) :
    ∀ k : ℕ, (renderSrtLinesFrom k l).map srtIndexOf
      = (List.range l.length).map (fun i => toString (i + k)) := by
  induction l with
  | nil => intro k; rfl
  | cons e rest ih =>
    intro k
    rw [renderSrtLinesFrom, List.map_cons, List.length_cons, List.range_succ_eq_map,
      List.map_cons, List.map_map, ih (k + 1)]
    congr 1
    · rw [Nat.zero_add]
      have hassoc : toString k ++ "\n" ++ fmt_srt e.start_us ++ " --> " ++
          fmt_srt e.end_us ++ "\n" ++ e.text ++ "\n"
          = toString k ++ ("\n" ++ (fmt_srt e.start_us ++ (" --> " ++
            (fmt_srt e.end_us ++ ("\n" ++ (e.text ++ "\n")))))) := by
        simp [String.append_assoc]
      rw [hassoc, srtIndexOf_indexed]
    · apply List.map_congr_left
      intro i _
      simp only [Function.comp_apply]
      congr 1
      omega

/-- Claim C6: in SRT mode the number of rendered blocks equals the number of
caption entries produced by the splitter, and the indices printed at the head
of the blocks are exactly the decimal numerals 1, 2, 3, ... in order. -/
theorem srt_indices_sequential (entries : List SrtEntry) :
    (renderSrtLines entries).length = entries.length ∧
    (renderSrtLines entries).map srtIndexOf
      = (List.range entries.length).map (fun i => toString (i + 1)) :=
  ⟨renderSrtLinesFrom_length 1 entries, renderSrtLinesFrom_indices entries 1⟩

/-- Claim C5: the conversion fails with the "no timecodes" error exactly when
no input line matches the timecode pattern; lines that do not match are
silently dropped (they cause no error), and on the error path no output is
produced (the error is all that is returned). -/
theorem no_timecodes_iff (content file_name : String) (dld : ℚ) (mc ml : ℕ)
    (avid : Bool) (suffix : String) :
    convert_to_srt content file_name dld mc ml avid suffix = .error .noTimecodes ↔
      ∀ line ∈ pySplitlines content, matchTimecodeLine line = none := by
  rw [← List.filterMap_eq_nil_iff (f := matchTimecodeLine)]
  simp only [convert_to_srt]
  by_cases hp : (pySplitlines content).filterMap matchTimecodeLine = []
  · rw [if_pos hp]
    simp [hp]
  · rw [if_neg hp]
    refine iff_of_false ?_ hp
    cases hbs : buildSegments (detect_framerate file_name) dld
        ((pySplitlines content).filterMap matchTimecodeLine) with
    | none => simp
    | some segs => cases avid <;> simp

/-- Witness for C5: an input with no matching line yields exactly the
"no timecodes" error. -/
theorem no_timecodes_iff_witness :
    convert_to_srt "no timecodes in this text" "f.txt" 3 42 2 false "_converted"
      = .error .noTimecodes :=
  (no_timecodes_iff "no timecodes in this text" "f.txt" 3 42 2 false "_converted").mpr
    (by decide)

/-- Claim C1 (amended): the segment builder returns one segment per parsed
entry, in order; the i-th segment starts at its own parsed timecode, its text
is the entry text stripped of surrounding whitespace, its end is the next
entry's start minus `1/fps` seconds -- taken modulo 24 hours, because the
source reads only the time-of-day components of the resulting datetime --
(respectively start plus `default_last_duration`, also modulo 24 hours, for
the last entry), and its duration is `max (end - start) 0.001`, hence
strictly positive even for out-of-order or duplicate timecodes. -/
theorem buildSegments_spec (fps dld : ℚ) :
    ∀ (parsed : List (String × String)) (segs : List Segment),
      buildSegments fps dld parsed = some segs →
      segs.length = parsed.length ∧
      (∀ i entry seg s, parsed.get? i = some entry → segs.get? i = some seg →
          parse_timecode entry.1 = some s →
          seg.start_s = s ∧ seg.text = pyStrip entry.2 ∧
          seg.duration_s = max (seg.end_s - s) (1/1000) ∧ 0 < seg.duration_s) ∧
      (∀ i seg nextEntry s2, segs.get? i = some seg →
          parsed.get? (i + 1) = some nextEntry →
          parse_timecode nextEntry.1 = some s2 →
          seg.end_s = timeOfDayMod (s2 - 1 / fps)) ∧
      (∀ entry seg s, parsed.get? (parsed.length - 1) = some entry →
          segs.get? (segs.length - 1) = some seg →
          parse_timecode entry.1 = some s →
          seg.end_s = timeOfDayMod (s + dld)) := by
  intro parsed
  induction parsed with
  | nil =>
    intro segs h
    have hsegs : segs = [] := by simpa [buildSegments] using h.symm
    subst hsegs
    refine ⟨rfl, ?_, ?_, ?_⟩
    · intro i entry seg s h1 h2 h3
      simp at h1
    · intro i seg nextEntry s2 h1 h2 h3
      simp at h1
    · intro entry seg s h1 h2 h3
      simp at h1
  | cons head rest ih =>
    obtain ⟨tc, text⟩ := head
    intro segs h
    cases hpt : parse_timecode tc with
    | none => simp [buildSegments, hpt] at h
    | some s0 =>
      cases her : nextEndRaw fps dld s0 rest with
      | none => simp [buildSegments, hpt, her] at h
      | some endRaw =>
        cases hbs : buildSegments fps dld rest with
        | none => simp [buildSegments, hpt, her, hbs] at h
        | some segs2 =>
          simp only [buildSegments, hpt, her, hbs] at h
          have hseg : segs = segOf s0 endRaw text :: segs2 := (Option.some.inj h).symm
          subst hseg
          obtain ⟨ihlen, ihstart, ihnext, ihlast⟩ := ih segs2 hbs
          refine ⟨by simp [ihlen], ?_, ?_, ?_⟩
          · intro i entry seg s h1 h2 h3
            cases i with
            | zero =>
              have he : entry = (tc, text) := by simpa using h1.symm
              have hsg : seg = segOf s0 endRaw text := by simpa using h2.symm
              subst he; subst hsg
              rw [hpt] at h3
              have hs0 : s0 = s := Option.some.inj h3
              subst hs0
              exact ⟨rfl, rfl, rfl, lt_of_lt_of_le (by norm_num) (le_max_right _ _)⟩
            | succ j =>
              exact ihstart j entry seg s h1 h2 h3
          · intro i seg nextEntry s2 h1 h2 h3
            cases i with
            | zero =>
              have hsg : seg = segOf s0 endRaw text := by simpa using h1.symm
              subst hsg
              cases rest with
              | nil => simp at h2
              | cons p2 r2 =>
                obtain ⟨tc2, t2⟩ := p2
                have hne : nextEntry = (tc2, t2) := by simpa using h2.symm
                subst hne
                rw [nextEndRaw, h3] at her
                have hend : s2 - 1 / fps = endRaw := Option.some.inj her
                show (segOf s0 endRaw text).end_s = timeOfDayMod (s2 - 1 / fps)
                rw [hend, segOf]
            | succ j =>
              exact ihnext j seg nextEntry s2 h1 h2 h3
          · intro entry seg s h1 h2 h3
            cases rest with
            | nil =>
              have he : entry = (tc, text) := by simpa using h1.symm
              have hsg : seg = segOf s0 endRaw text := by
                have hl2 : segs2 = [] := List.length_eq_zero.mp (by simp [ihlen])
                subst hl2
                simpa using h2.symm
              subst he; subst hsg
              rw [hpt] at h3
              have hs0 : s0 = s := Option.some.inj h3
              subst hs0
              rw [nextEndRaw] at her
              have hend : s0 + dld = endRaw := Option.some.inj her
              show (segOf s0 endRaw text).end_s = timeOfDayMod (s0 + dld)
              rw [hend, segOf]
            | cons p2 r2 =>
              have hlen2 : segs2.length = r2.length + 1 := by simp [ihlen]
              have h1' : (p2 :: r2).get? ((p2 :: r2).length - 1) = some entry := by
                simpa using h1
              have h2' : segs2.get? (segs2.length - 1) = some seg := by
                have hidx : (segOf s0 endRaw text :: segs2).length - 1 = segs2.length := by
                  simp
                rw [hidx] at h2
                rw [hlen2] at h2 ⊢
                simpa using h2
              exact ihlast entry seg s h1' h2' h3

section ConcreteWitness

attribute [local semireducible] Rat.add Rat.mul Rat.sub Rat.inv

/-- Witness for C1 on the two-entry Scenario A transcript. -/
theorem buildSegments_spec_witness :
    buildSegments 25 3 [("00:00:01.00", "Hello"), ("00:00:03.00", "Bye")]
        = some [{ start_s := 1, end_s := 74/25, duration_s := 49/25, text := "Hello" },
                { start_s := 3, end_s := 6, duration_s := 3, text := "Bye" }] ∧
    ([{ start_s := 1, end_s := 74/25, duration_s := 49/25, text := "Hello" },
      { start_s := 3, end_s := 6, duration_s := 3, text := "Bye" }] : List Segment).length
      = ([("00:00:01.00", "Hello"), ("00:00:03.00", "Bye")] : List (String × String)).length := by
  have hb : buildSegments 25 3 [("00:00:01.00", "Hello"), ("00:00:03.00", "Bye")]
      = some [{ start_s := 1, end_s := 74/25, duration_s := 49/25, text := "Hello" },
              { start_s := 3, end_s := 6, duration_s := 3, text := "Bye" }] := by
    decide
  exact ⟨hb, (buildSegments_spec 25 3 _ _ hb).1⟩

end ConcreteWitness

end TranscriptToSrt
